import Mathlib

/-!
Shallow embedding of the file-based ETL evaluation and monitoring framework
(`src/tests/etl_monitoring.py`, `src/tests/file_based_evaluator.py`,
`src/tests/eval.py`) together with proofs settling the frozen claims about it.

Conventions used throughout:
* Python `float` scores are modelled as `ℚ` (every constant appearing in the
  scoring code is a small decimal; no claim depends on IEEE rounding).
* File-system enumeration (`Path.rglob`, `glob`) and file reads are external
  effects; functions receive their observable outcome (a listing, a parse
  result) as an explicit argument.
* A Python exception that the code under scrutiny does not catch is modelled
  by `Option`/`none`; exceptions caught by a local `except` are modelled by
  the explicit branch the handler takes.
-/

namespace EtlAgent

/-- The `{` character (written via its code point). -/
def lbraceChar : Char := Char.ofNat 123

/-- The `}` character (written via its code point). -/
def rbraceChar : Char := Char.ofNat 125

/-- The backtick character. -/
def backtickChar : Char := Char.ofNat 96

/-- Does `n` occur as a contiguous run inside `h`? -/
def subAux (n : List Char) : List Char → Bool
  | [] => n.isEmpty
  | c :: rest => n.isPrefixOf (c :: rest) || subAux n rest

/-- Python's `needle in hay` on strings: substring containment. -/
def containsSub (needle hay : String) : Bool :=
  subAux needle.toList hay.toList

/-- Python's `str.lower()` (ASCII view; the scoring code only compares
ASCII indicator phrases). -/
def pyLower (s : String) : String :=
  String.mk (s.toList.map Char.toLower)

namespace Monitoring

/-!
## `src/tests/etl_monitoring.py`
-/

/-- Result record produced by every validator
(`ValidationResult` dataclass; `timestamp`, `file_path` and the free-form
`details` mapping carry no scoring information and are omitted). -/
structure VResult where
  passed : Bool
  score : ℚ
  issues : List String
  deriving Repr, DecidableEq

/-- The portion of a parsed schema JSON document inspected by
`_validate_schema_file`: presence of the three top-level sections and, for
every table, its optional `fields` map where each field records whether it
carries a `"type"` key. -/
structure SchemaDoc where
  hasEntities : Bool
  hasTransformations : Bool
  /-- Holds `none` when the document has no `"tables"` key; otherwise the list of
  `(table name, optional fields map)` entries, each field being
  `(field name, field has a "type" key)`. -/
  tables : Option (List (String × Option (List (String × Bool))))
  deriving Repr, DecidableEq

/-- Outcome of `json.load` on the schema file: a parsed document, a
`json.JSONDecodeError`, or any other exception (unreadable file, ...). -/
inductive SchemaParse where
  | ok (s : SchemaDoc)
  | decodeError
  | otherError (msg : String)
  deriving Repr, DecidableEq

/-- Missing-`type` deductions collected by the field loop of
`_validate_schema_file` for one table's optional fields map. -/
def tableMissingType : Option (List (String × Bool)) → ℕ
  | none => 0
  | some fl => (fl.filter (fun p => !p.2)).length

/-- Number of fields over all tables lacking a `"type"` key. -/
def missingTypeCount (s : SchemaDoc) : ℕ :=
  match s.tables with
  | none => 0
  | some ts => (ts.map (fun t => tableMissingType t.2)).sum

/-- Issue strings emitted by the field loop. -/
def tableTypeIssues : Option (List (String × Bool)) → List String
  | none => []
  | some fl => (fl.filter (fun p => !p.2)).map
      (fun p => "Field " ++ p.1 ++ " missing type")

/-- Embeds `RealTimeETLMonitor._validate_schema_file`: starts at `5.0`, deducts
`2.0` for a missing `entities` section, `2.0` for missing `tables`, `1.0`
for missing `transformations`, and `0.2` per field lacking a `type` key;
`passed := score >= 3.0`, returned score floored at `0.0`.  Malformed JSON
(or any other exception) yields score `0.0`. -/
def validateSchemaFile (r : SchemaParse) : VResult :=
  match r with
  | .decodeError =>
      { passed := false, score := 0, issues := ["Invalid JSON format"] }
  | .otherError msg =>
      { passed := false, score := 0, issues := ["Validation error: " ++ msg] }
  | .ok s =>
      let i1 : List String := if s.hasEntities then [] else ["Missing \x27entities\x27 section"]
      let s1 : ℚ := if s.hasEntities then 5 else 5 - 2
      let i2 := i1 ++ (if s.tables.isSome then [] else ["Missing \x27tables\x27 section"])
      let s2 := if s.tables.isSome then s1 else s1 - 2
      let i3 := i2 ++ (if s.hasTransformations then [] else ["Missing \x27transformations\x27 section"])
      let s3 := if s.hasTransformations then s2 else s2 - 1
      let fieldIssues : List String :=
        match s.tables with
        | none => []
        | some ts => (ts.map (fun t => tableTypeIssues t.2)).flatten
      let s4 := s3 - (missingTypeCount s : ℚ) * (2/10)
      { passed := decide (s4 ≥ 3), score := max 0 s4, issues := i3 ++ fieldIssues }

/-- Input to the ETL-script validator: the script's text together with the
outcome of Python's `compile(code, path, mode exec)` syntax check (an external
oracle), or a read failure. -/
inductive ScriptSource where
  | content (code : String) (syntaxOk : Bool)
  | readError (msg : String)
  deriving Repr, DecidableEq

/-- Embeds `RealTimeETLMonitor._validate_etl_script`: starts at `5.0`; deducts
`1.0` when neither `import pandas` nor `import csv` occurs, `1.0` when
`def ` is absent, `1.0` when neither `with open` nor `pd.read_` occurs,
`1.0` when neither `.to_csv` nor `csv.writer` occurs, `0.5` when `try:` or
`except:` is absent; a syntax error forces the score to `0.0`;
`passed := score >= 3.0`, returned score floored at `0.0`. -/
def validateEtlScript (src : ScriptSource) : VResult :=
  match src with
  | .readError msg =>
      { passed := false, score := 0, issues := ["Script validation error: " ++ msg] }
  | .content code syntaxOk =>
      let noImports := !(containsSub "import pandas" code) && !(containsSub "import csv" code)
      let noDef := !(containsSub "def " code)
      let noRead := !(containsSub "with open" code) && !(containsSub "pd.read_" code)
      let noCsvOut := !(containsSub ".to_csv" code) && !(containsSub "csv.writer" code)
      let noErrHandling := !(containsSub "try:" code) || !(containsSub "except:" code)
      let s1 : ℚ := if noImports then 5 - 1 else 5
      let s2 := if noDef then s1 - 1 else s1
      let s3 := if noRead then s2 - 1 else s2
      let s4 := if noCsvOut then s3 - 1 else s3
      let s5 := if noErrHandling then s4 - 1/2 else s4
      let s6 := if syntaxOk then s5 else 0
      let issues :=
        (if noImports then ["Missing data processing imports"] else []) ++
        (if noDef then ["No function definitions found"] else []) ++
        (if noRead then ["No file reading operations found"] else []) ++
        (if noCsvOut then ["No CSV output generation found"] else []) ++
        (if noErrHandling then ["Missing error handling"] else []) ++
        (if syntaxOk then [] else ["Syntax error"])
      { passed := decide (s6 ≥ 3), score := max 0 s6, issues := issues }

/-- Observable state of the `watchdog` observer owned by the monitor:
how many watches have been scheduled, how many times its thread `start` was
invoked, and whether it was stopped. -/
structure ObserverState where
  scheduledWatches : ℕ
  startCalls : ℕ
  stopped : Bool
  deriving Repr, DecidableEq

/-- State of `RealTimeETLMonitor` relevant to the start/stop lifecycle. -/
structure MonitorState where
  observer : ObserverState
  monitoringActive : Bool
  deriving Repr, DecidableEq

/-- Embeds `RealTimeETLMonitor.__init__`: fresh observer, not active. -/
def initMonitor : MonitorState :=
  { observer := { scheduledWatches := 0, startCalls := 0, stopped := false },
    monitoringActive := false }

/-- Embeds `RealTimeETLMonitor.start_monitoring`: unconditionally schedules a new
watch on the workspace, starts the observer and sets `monitoring_active`;
the source contains no guard on `monitoring_active`. -/
def startMonitoring (m : MonitorState) : MonitorState :=
  { observer := { m.observer with
      scheduledWatches := m.observer.scheduledWatches + 1,
      startCalls := m.observer.startCalls + 1 },
    monitoringActive := true }

/-- Embeds `RealTimeETLMonitor.stop_monitoring`: guarded by `monitoring_active`;
when active it stops the observer and clears the flag, otherwise it does
nothing. -/
def stopMonitoring (m : MonitorState) : MonitorState :=
  if m.monitoringActive then
    { observer := { m.observer with stopped := true }, monitoringActive := false }
  else m

end Monitoring

namespace FileEval

/-!
## `src/tests/file_based_evaluator.py`
-/

/-- Embeds `FileFingerprint`: the per-file record stored by
`capture_workspace_state` (`size`, `mtime`, `content_hash`). -/
structure FileFingerprint where
  size : ℕ
  mtime : ℚ
  contentHash : String
  deriving Repr, DecidableEq

/-- One entry of the recursive enumeration `workspace_dir.rglob("*")`:
the path relative to the workspace (as components) plus whether the entry
is a regular file, and the fingerprint data the evaluator would read for
it.  `rglob("*")` yields every entry under the root, hidden or not. -/
structure FsEntry where
  path : List String
  isFile : Bool
  fingerprint : FileFingerprint
  deriving Repr, DecidableEq

/-- Relative path as stored in the snapshot key (`str(rel_path)`). -/
def joinPath (p : List String) : String :=
  String.intercalate "/" p

/-- Embeds the `FileState` dataclass. -/
structure FileState where
  timestamp : ℚ
  files : List (String × FileFingerprint)
  deriving Repr, DecidableEq

/-- Embeds `FileBasedETLEvaluator.capture_workspace_state`: walks the `rglob`
listing and records every entry with `is_file()`; no path is excluded. -/
def captureWorkspaceState (tree : List FsEntry) (now : ℚ) : FileState :=
  { timestamp := now,
    files := (tree.filter (fun e => e.isFile)).map
      (fun e => (joinPath e.path, e.fingerprint)) }

/-- The fixed indicator phrase list of `_detect_permission_seeking`. -/
def permissionIndicators : List String :=
  ["would you like me to", "shall I proceed", "should I continue",
   "would you like to proceed", "next, I can", "ready to move on",
   "permission to", "before proceeding", "should I generate",
   "would you like the"]

/-- Embeds `FileBasedETLEvaluator._detect_permission_seeking`: case-insensitive
substring match of any indicator phrase against the response. -/
def detectPermissionSeeking (responseText : String) : Bool :=
  permissionIndicators.any (fun ind => containsSub ind (pyLower responseText))

/-- The two evaluation modes. -/
inductive EvalMode where
  | incremental
  | fullPipeline
  deriving Repr, DecidableEq

/-- The five component scores feeding `_evaluate_complete_pipeline`, in the
order the code lists them: process quality, file outputs, pipeline
functionality, cross-file consistency, production readiness. -/
structure ComponentScores where
  process : ℚ
  fileOutputs : ℚ
  functionality : ℚ
  consistency : ℚ
  productionReadiness : ℚ
  deriving Repr, DecidableEq

/-- The `scores` list built by `_evaluate_complete_pipeline`: weighted
components (plus the `1.0` permission bonus) in incremental mode, raw
components in full-pipeline mode. -/
def pipelineScoresList (c : ComponentScores) (mode : EvalMode)
    (permissionSeeking : Bool) : List ℚ :=
  match mode with
  | .incremental =>
      let base := [c.process * (15/100), c.fileOutputs * (40/100),
        c.functionality * (20/100), c.consistency * (15/100),
        c.productionReadiness * (10/100)]
      if permissionSeeking then base ++ [1] else base
  | .fullPipeline =>
      [c.process, c.fileOutputs, c.functionality, c.consistency,
       c.productionReadiness]

/-- Embeds `sum(scores) / len([s for s in scores if s > 0]) if scores else 0.0`:
`none` models the uncaught `ZeroDivisionError` raised when the list is
non-empty but no entry is strictly positive. -/
def overallFromScores (scores : List ℚ) : Option ℚ :=
  if scores.isEmpty then some 0
  else
    let k := (scores.filter (fun s => 0 < s)).length
    if k = 0 then none else some (scores.sum / (k : ℚ))

/-- Pass threshold selected by the mode (`2.5` incremental, `3.5` full). -/
def passThreshold : EvalMode → ℚ
  | .incremental => 25/10
  | .fullPipeline => 35/10

/-- Overall score of `_evaluate_complete_pipeline` from the five component
scores, the mode, and the permission-seeking flag. -/
def overallScore (c : ComponentScores) (mode : EvalMode)
    (permissionSeeking : Bool) : Option ℚ :=
  overallFromScores (pipelineScoresList c mode permissionSeeking)

/-- Computes `overall_score` together with `overall_pass`
(`overall_score >= (2.5 if incremental else 3.5)`). -/
def overallResult (c : ComponentScores) (mode : EvalMode)
    (permissionSeeking : Bool) : Option (ℚ × Bool) :=
  (overallScore c mode permissionSeeking).map
    (fun s => (s, decide (s ≥ passThreshold mode)))

/-- Sum of the weighted incremental `scores` list (without the bonus). -/
def incrWeightedSum (c : ComponentScores) : ℚ :=
  (pipelineScoresList c .incremental false).sum

/-- Number of strictly positive entries of the weighted incremental list. -/
def incrPosCount (c : ComponentScores) : ℕ :=
  ((pipelineScoresList c .incremental false).filter (fun s => 0 < s)).length

/-- Schema entity/table data inspected by the incremental branch of
`_evaluate_cross_file_consistency`: the `entities` list and the `tables`
key set, each `none` when the corresponding top-level key is absent. -/
structure ConsSchema where
  entities : Option (List String)
  tableKeys : Option (List String)
  deriving Repr, DecidableEq

/-- Outcome of `json.load` on the first discovered schema file. -/
inductive ConsLoad where
  | ok (s : ConsSchema)
  | raiseErr
  deriving Repr, DecidableEq

/-- Computes `len(set(es) & set(ts)) / len(set(es))` for the entity/table check. -/
def consistencyRatio (es ts : List String) : ℚ :=
  ((es.dedup.filter (fun e => e ∈ ts)).length : ℚ) / (es.dedup.length : ℚ)

/-- Embeds `FileBasedETLEvaluator._evaluate_cross_file_consistency`, incremental
mode.  `schemaFiles` is the (parsed-or-failing) result of loading each file
matched by `glob("**/schema*.json")`; `baseNames` are the underscore-stem
base names collected by the naming check from `rglob("*")`.

The embedding reproduces the source faithfully, including its slip: in the
incremental branch the local `etl_files` is never assigned, so the
subsequent `if schema_files and etl_files:` raises `UnboundLocalError`
whenever `schema_files` is non-empty; the blanket `except` then deducts a
further `1.0`.  When `schema_files` is empty the conjunction
short-circuits and the naming check runs normally. -/
def crossFileConsistencyIncremental (schemaFiles : List ConsLoad)
    (baseNames : List String) : ℚ :=
  match schemaFiles with
  | [] =>
      -- `consistency_score = 2.0`, then the naming-consistency check
      let s0 : ℚ := 2
      let s1 := if baseNames.dedup.length > 2 then s0 - 1 else s0
      max 0 s1
  | first :: _ =>
      match first with
      | .raiseErr =>
          -- `json.load` raises; the blanket `except` deducts `1.0`
          max 0 ((5 : ℚ) - 1)
      | .ok s =>
          let afterEntityCheck : ℚ :=
            match s.entities, s.tableKeys with
            | some es, some ts =>
                let ratio := if es ≠ [] then consistencyRatio es ts else 0
                if ratio < 1/2 then 5 - 1 else 5
            | _, _ => 5
          -- `if schema_files and etl_files:` raises `UnboundLocalError`
          -- (`etl_files` unassigned in this branch); caught: deduct `1.0`
          max 0 (afterEntityCheck - 1)

end FileEval

namespace Eval

/-!
## `src/tests/eval.py`

The extraction routine runs two regular expressions over the raw response
and feeds the first match to `json.loads`.  The JSON values produced by
`json.loads` are modelled by `Json`; the parser below follows the JSON
grammar accepted by the Python standard library (`NaN`/`Infinity` literals
and non-ASCII niceties are not exercised by any claim and are omitted).
-/

/-- A parsed JSON number, kept as the exact data of its literal so that the
parser stays free of rational arithmetic; `NumRep.toRat` gives its value. -/
structure NumRep where
  neg : Bool
  intPart : ℕ
  fracPart : ℕ
  fracLen : ℕ
  expNeg : Bool
  expPart : ℕ
  deriving Repr, DecidableEq

/-- Exact rational value of a parsed number literal. -/
def NumRep.toRat (n : NumRep) : ℚ :=
  let mantissa : ℚ := (n.intPart : ℚ) + (n.fracPart : ℚ) / ((10 : ℚ) ^ n.fracLen)
  let scaled : ℚ :=
    if n.expNeg then mantissa / ((10 : ℚ) ^ n.expPart)
    else mantissa * ((10 : ℚ) ^ n.expPart)
  if n.neg then -scaled else scaled

/-- A parsed JSON document as produced by `json.loads`. -/
inductive Json where
  | null
  | bool (b : Bool)
  | num (v : NumRep)
  | str (s : String)
  | arr (xs : List Json)
  | obj (kvs : List (String × Json))
  deriving Repr

/-- Python's `key in parsed_value`: key lookup on a dict, membership on a
list, substring test on a string; `none` models the `TypeError` raised on
numbers, booleans and `None`. -/
def pyContains (v : Json) (k : String) : Option Bool :=
  match v with
  | .obj kvs => some (kvs.any (fun p => p.1 == k))
  | .arr xs => some (xs.any (fun x => match x with | .str s => s == k | _ => false))
  | .str s => some (containsSub k s)
  | _ => none

/-- Python's `d.get(key, default)` where `d` must be a dict: `none` models
the `AttributeError` raised when the receiver is not a dict.  Duplicate
keys keep the last occurrence, as in `json.loads`. -/
def pyGetD (v : Json) (k : String) (default : Json) : Option Json :=
  match v with
  | .obj kvs =>
      some ((kvs.reverse.find? (fun p => p.1 == k)).elim default (fun p => p.2))
  | _ => none

/-- A JSON value used as the right operand of `* 5.0`: numbers are
themselves, booleans coerce; anything else raises `TypeError` (`none`). -/
def asNumber (v : Json) : Option ℚ :=
  match v with
  | .num q => some q.toRat
  | .bool b => some (if b then 1 else 0)
  | _ => none

/-! ### A JSON parser (model of `json.loads`) -/

/-- JSON whitespace. -/
def isJsonWs (c : Char) : Bool :=
  c == ' ' || c == '\t' || c == '\n' || c == '\r'

/-- Decimal digit test. -/
def isDigitC (c : Char) : Bool :=
  '0' ≤ c && c ≤ '9'

/-- Value of a decimal digit character. -/
def digitVal (c : Char) : ℕ := c.toNat - 48

/-- Natural number denoted by a digit string. -/
def natOfDigits (ds : List Char) : ℕ :=
  ds.foldl (fun n c => 10 * n + digitVal c) 0

/-- Value of a hexadecimal digit character, if any. -/
def hexVal (c : Char) : Option ℕ :=
  if '0' ≤ c && c ≤ '9' then some (c.toNat - 48)
  else if 'a' ≤ c && c ≤ 'f' then some (c.toNat - 87)
  else if 'A' ≤ c && c ≤ 'F' then some (c.toNat - 55)
  else none

/-- String literal body: characters until the closing quote, decoding the
standard escapes. -/
def parseStringLit : ℕ → List Char → Option (List Char × List Char)
  | 0, _ => none
  | _, [] => none
  | fuel + 1, c :: rest =>
      if c == '"' then some ([], rest)
      else if c == '\\' then
        match rest with
        | [] => none
        | e :: rest2 =>
            let dec : Option (Char × List Char) :=
              if e == '"' then some ('"', rest2)
              else if e == '\\' then some ('\\', rest2)
              else if e == '/' then some ('/', rest2)
              else if e == 'b' then some ('\x08', rest2)
              else if e == 'f' then some ('\x0c', rest2)
              else if e == 'n' then some ('\n', rest2)
              else if e == 'r' then some ('\r', rest2)
              else if e == 't' then some ('\t', rest2)
              else if e == 'u' then
                match rest2 with
                | a :: b :: c2 :: d :: rest3 =>
                    match hexVal a, hexVal b, hexVal c2, hexVal d with
                    | some ha, some hb, some hc, some hd =>
                        some (Char.ofNat (((ha * 16 + hb) * 16 + hc) * 16 + hd), rest3)
                    | _, _, _, _ => none
                | _ => none
              else none
            match dec with
            | none => none
            | some (ch, r) =>
                (parseStringLit fuel r).map (fun p => (ch :: p.1, p.2))
      else
        (parseStringLit fuel rest).map (fun p => (c :: p.1, p.2))

/-- Number literal, starting at a `-` or a digit. -/
def parseNumber (cs : List Char) : Option (NumRep × List Char) :=
  let signed : Bool × List Char :=
    match cs with
    | '-' :: r => (true, r)
    | _ => (false, cs)
  let neg := signed.1
  let cs1 := signed.2
  let intDigits := cs1.takeWhile isDigitC
  if intDigits.isEmpty then none
  else if intDigits.length > 1 && intDigits.headD '0' == '0' then none
  else
    let cs2 := cs1.drop intDigits.length
    let fracParsed : Option (List Char × List Char) :=
      match cs2 with
      | '.' :: r =>
          let fd := r.takeWhile isDigitC
          if fd.isEmpty then none else some (fd, r.drop fd.length)
      | _ => some ([], cs2)
    match fracParsed with
    | none => none
    | some (fracDigits, cs3) =>
        let expParsed : Option (Bool × List Char × List Char) :=
          match cs3 with
          | 'e' :: r | 'E' :: r =>
              let se : Bool × List Char :=
                match r with
                | '+' :: r2 => (false, r2)
                | '-' :: r2 => (true, r2)
                | _ => (false, r)
              let ed := se.2.takeWhile isDigitC
              if ed.isEmpty then none
              else some (se.1, ed, se.2.drop ed.length)
          | _ => some (false, [], cs3)
        match expParsed with
        | none => none
        | some (expNeg, expDigits, cs4) =>
            some ({ neg := neg, intPart := natOfDigits intDigits,
                    fracPart := natOfDigits fracDigits,
                    fracLen := fracDigits.length,
                    expNeg := expNeg, expPart := natOfDigits expDigits }, cs4)

/-- Strip an expected literal prefix. -/
def stripPrefixL : List Char → List Char → Option (List Char)
  | [], cs => some cs
  | _, [] => none
  | p :: ps, c :: cs => if c == p then stripPrefixL ps cs else none

/-- Parser position: reading one value, an object body (just after the
opening brace), object members with the pairs read so far (reversed), an
array body, or array elements with the values read so far (reversed). -/
inductive PMode where
  | value
  | objBody
  | objMembers (acc : List (String × Json))
  | arrBody
  | arrElems (acc : List Json)

/-- Recursive-descent JSON parser, structurally recursive on its fuel so
that it evaluates by reduction.  Returns the parsed value and the rest of
the input. -/
def parseStep : ℕ → PMode → List Char → Option (Json × List Char)
  | 0, _, _ => none
  | fuel + 1, .value, cs =>
      (match cs.dropWhile isJsonWs with
      | [] => none
      | c :: rest =>
          if c == '"' then
            (parseStringLit (rest.length + 1) rest).map
              (fun p => (.str (String.mk p.1), p.2))
          else if c == lbraceChar then parseStep fuel .objBody rest
          else if c == '[' then parseStep fuel .arrBody rest
          else if c == 't' then
            (stripPrefixL ['r', 'u', 'e'] rest).map (fun r => (.bool true, r))
          else if c == 'f' then
            (stripPrefixL ['a', 'l', 's', 'e'] rest).map (fun r => (.bool false, r))
          else if c == 'n' then
            (stripPrefixL ['u', 'l', 'l'] rest).map (fun r => (.null, r))
          else (parseNumber (c :: rest)).map (fun p => (.num p.1, p.2)))
  | fuel + 1, .objBody, cs =>
      (match cs.dropWhile isJsonWs with
      | [] => none
      | c :: rest =>
          if c == rbraceChar then some (.obj [], rest)
          else parseStep fuel (.objMembers []) (c :: rest))
  | fuel + 1, .objMembers acc, cs =>
      (match cs.dropWhile isJsonWs with
      | [] => none
      | c :: rest =>
          if c == '"' then
            match parseStringLit (rest.length + 1) rest with
            | none => none
            | some (key, rest2) =>
                match rest2.dropWhile isJsonWs with
                | ':' :: rest3 =>
                    (match parseStep fuel .value rest3 with
                    | none => none
                    | some (v, rest4) =>
                        match rest4.dropWhile isJsonWs with
                        | ',' :: rest5 =>
                            parseStep fuel (.objMembers ((String.mk key, v) :: acc)) rest5
                        | c2 :: rest5 =>
                            if c2 == rbraceChar then
                              some (.obj (((String.mk key, v) :: acc).reverse), rest5)
                            else none
                        | [] => none)
                | _ => none
          else none)
  | fuel + 1, .arrBody, cs =>
      (match cs.dropWhile isJsonWs with
      | [] => none
      | c :: rest =>
          if c == ']' then some (.arr [], rest)
          else parseStep fuel (.arrElems []) (c :: rest))
  | fuel + 1, .arrElems acc, cs =>
      (match parseStep fuel .value cs with
      | none => none
      | some (v, rest) =>
          match rest.dropWhile isJsonWs with
          | ',' :: rest2 => parseStep fuel (.arrElems (v :: acc)) rest2
          | c :: rest2 =>
              if c == ']' then some (.arr ((v :: acc).reverse), rest2)
              else none
          | [] => none)

/-- Models `json.loads`: parse one value and require only whitespace to remain. -/
def jsonParse (s : String) : Option Json :=
  match parseStep (2 * s.length + 8) .value s.toList with
  | some (v, rest) => if (rest.dropWhile isJsonWs).isEmpty then some v else none
  | none => none

/-! ### The two regular expressions of `extract_schema_generator_output` -/

/-- Python `\s` (ASCII part; the responses contain no exotic whitespace). -/
def isPyWs (c : Char) : Bool :=
  c == ' ' || c == '\t' || c == '\n' || c == '\r' || c == '\x0b' || c == '\x0c'

/-- The literal opener of the fenced pattern: three backticks and `json`. -/
def fenceOpen : List Char :=
  [backtickChar, backtickChar, backtickChar, 'j', 's', 'o', 'n']

/-- Does the input begin, after the greedy `\s*`, with three backticks?
This decides where the lazy `.*?` of the fenced pattern may stop. -/
def followedByFence (cs : List Char) : Bool :=
  match cs.dropWhile isPyWs with
  | c1 :: c2 :: c3 :: _ =>
      c1 == backtickChar && c2 == backtickChar && c3 == backtickChar
  | _ => false

/-- Lazy scan for the group `\{.*?\}` followed by `\s*` and three
backticks: returns the shortest content ending at a `}` whose tail starts
the closing fence.  The returned list is the content up to and including
that `}`. -/
def lazyCloseBrace : List Char → Option (List Char)
  | [] => none
  | c :: rest =>
      if c == rbraceChar && followedByFence rest then some [c]
      else (lazyCloseBrace rest).map (fun tail => c :: tail)

/-- Match of the fenced pattern anchored at the current position:
the literal opener, greedy `\s*`, then the group `\{.*?\}` (the regex's
`re.DOTALL` makes `.` accept newlines), then `\s*` and the closing fence.
Returns the captured group. -/
def matchFencedAt (cs : List Char) : Option (List Char) :=
  match stripPrefixL fenceOpen cs with
  | none => none
  | some rest =>
      match rest.dropWhile isPyWs with
      | c :: rest2 =>
          if c == lbraceChar then
            (lazyCloseBrace rest2).map (fun tail => c :: tail)
          else none
      | [] => none

/-- Models `re.findall` of the fenced pattern restricted to the first match:
the leftmost position where the full pattern matches. -/
def findFencedAux : List Char → Option (List Char)
  | [] => none
  | c :: rest =>
      match matchFencedAt (c :: rest) with
      | some g => some g
      | none => findFencedAux rest

/-- First capture of `` ```json\s*(\{.*?\})\s*``` `` over the response. -/
def firstFenced (s : String) : Option String :=
  (findFencedAux s.toList).map String.mk

/-- Match of the fallback pattern `\{[^{}]*"entities"[^{}]*\}` anchored at
the current position: an opening brace, a brace-free run containing the
literal `"entities"` (quotes included), closed by a `}`. -/
def matchFallbackAt (cs : List Char) : Option (List Char) :=
  match cs with
  | c :: rest =>
      if c == lbraceChar then
        let run := rest.takeWhile (fun x => !(x == lbraceChar) && !(x == rbraceChar))
        let after := rest.drop run.length
        match after with
        | c2 :: _ =>
            if c2 == rbraceChar && subAux ('"' :: ("entities".toList ++ ['"'])) run then
              some (c :: run ++ [c2])
            else none
        | [] => none
      else none
  | [] => none

/-- Leftmost match of the fallback pattern. -/
def findFallbackAux : List Char → Option (List Char)
  | [] => none
  | c :: rest =>
      match matchFallbackAt (c :: rest) with
      | some g => some g
      | none => findFallbackAux rest

/-- First match of `\{[^{}]*"entities"[^{}]*\}` over the response. -/
def firstFallback (s : String) : Option String :=
  (findFallbackAux s.toList).map String.mk

/-! ### `extract_schema_generator_output` -/

/-- The result dictionary built by `extract_schema_generator_output`. -/
structure ExtractResult where
  success : Bool
  error : Option String
  schema : Option Json
  source : String
  deriving Repr

/-- Failure reason when the response mentions the schema-generator. -/
def errSchemaGenNoOutput : String :=
  "Schema-generator was called but no structured schema found"

/-- Failure reason when the schema-generator was never mentioned. -/
def errNoSchemaFound : String :=
  "No structured schema found in response"

/-- Embeds `"schema-generator" in response.lower() or "Use the schema-generator"
in response`. -/
def mentionsSchemaGenerator (response : String) : Bool :=
  containsSub "schema-generator" (pyLower response) ||
    containsSub "Use the schema-generator" response

/-- The two mention-dependent failure results at the end of
`extract_schema_generator_output`. -/
def mentionResult (mentionFlag : Bool) : ExtractResult :=
  if mentionFlag then
    { success := false, error := some errSchemaGenNoOutput, schema := none,
      source := "schema-generator" }
  else
    { success := false, error := some errNoSchemaFound, schema := none,
      source := "unknown" }

/-- Processing of the first regex match `json_matches[0]`: `json.loads`
(its failure is caught as a `JSONDecodeError`, the Python message suffix is
not modelled), then the two `in` checks; a `TypeError` from `in` is caught
by the blanket `except`. -/
def processCandidate (g : String) (mentionFlag : Bool) : ExtractResult :=
  match jsonParse g with
  | none =>
      { success := false, error := some "JSON parsing error", schema := none,
        source := "schema-generator" }
  | some d =>
      match pyContains d "entities" with
      | none =>
          { success := false, error := some "Schema extraction error",
            schema := none, source := "schema-generator" }
      | some false => mentionResult mentionFlag
      | some true =>
          match pyContains d "tables" with
          | none =>
              { success := false, error := some "Schema extraction error",
                schema := none, source := "schema-generator" }
          | some false => mentionResult mentionFlag
          | some true =>
              { success := true, error := none, schema := some d,
                source := "schema-generator" }

/-- Embeds `JSONToCSVSchemaEvaluator.extract_schema_generator_output`: the fenced
pattern is tried over the whole response; only when it has no match at all
is the fallback pattern tried; the first match (if any) is parsed and
checked for the `entities` and `tables` keys; otherwise the result reports
one of the two mention-dependent failure reasons. -/
def extractSchemaGeneratorOutput (response : String) : ExtractResult :=
  let candidate :=
    match firstFenced response with
    | some g => some g
    | none => firstFallback response
  match candidate with
  | some g => processCandidate g (mentionsSchemaGenerator response)
  | none => mentionResult (mentionsSchemaGenerator response)

/-! ### `evaluate_schema_inference` -/

/-- Decimal rendering of a parsed number for `str(schema)` (approximates
CPython's `repr` of the `int`/`float` produced by `json.loads`; no claim
depends on number formatting, only on the substring checks for `items` and
`shipping_address`). -/
def NumRep.pyRepr (n : NumRep) : String :=
  let sign := if n.neg then "-" else ""
  let base :=
    if n.fracLen = 0 then
      Nat.repr n.intPart ++ (if n.expPart = 0 then "" else ".0")
    else
      Nat.repr n.intPart ++ "." ++
        (let ds := Nat.repr n.fracPart
         String.mk (List.replicate (n.fracLen - ds.length) '0') ++ ds)
  sign ++ base

/-- Python `str()` of a value returned by `json.loads`: dict/list display
with single-quoted strings, `True`/`False`/`None` capitalised. -/
def pyRepr : Json → String
  | .null => "None"
  | .bool b => if b then "True" else "False"
  | .num n => n.pyRepr
  | .str s => "\x27" ++ s ++ "\x27"
  | .arr xs =>
      "[" ++ String.intercalate ", " (xs.attach.map (fun x => pyRepr x.1)) ++ "]"
  | .obj kvs =>
      String.mk [lbraceChar] ++
        String.intercalate ", "
          (kvs.attach.map (fun p => "\x27" ++ p.1.1 ++ "\x27: " ++ pyRepr p.1.2)) ++
        String.mk [rbraceChar]
  termination_by j => sizeOf j
  decreasing_by
    · have h := List.sizeOf_lt_of_mem x.2
      simp only [Json.arr.sizeOf_spec]
      omega
    · have h := List.sizeOf_lt_of_mem p.2
      have h2 : sizeOf p.1.2 < sizeOf p.1 := by
        obtain ⟨⟨a, b⟩, _⟩ := p
        simp only [Prod.mk.sizeOf_spec]
        omega
      simp only [Json.obj.sizeOf_spec]
      omega

/-- Field names collected from `schema.get("tables", {})`:
`for table_name, table_data in tables.items(): fields =
table_data.get("fields", {}); for field_name, ... : append(field_name)`.
`none` models the `AttributeError` raised when `tables`, a `table_data` or
a `fields` value is not a dict. -/
def tablesColumnsOf (tables : Json) : Option (List String) :=
  match tables with
  | .obj kvs =>
      kvs.foldlM
        (fun acc p =>
          (pyGetD p.2 "fields" (.obj [])).bind fun fields =>
            match fields with
            | .obj fkvs => some (acc ++ fkvs.map (fun f => f.1))
            | _ => none)
        []
  | _ => none

/-- The flattening operations detected from `transformations.csv`:
when `array_handling == "multiple_rows"`, `"items"` and
`"shipping_address"` are reported iff they occur in `str(schema).lower()`.
Also returns `array_handling` (as compared against strings). -/
def flatOpsOf (schema : Json) : Option (List String) :=
  (pyGetD schema "transformations" (.obj [])).bind fun transformations =>
  (pyGetD transformations "csv" (.obj [])).bind fun csvT =>
  (pyGetD csvT "array_handling" (.str "")).bind fun arrayHandling =>
  (pyGetD csvT "flattening_strategy" (.str "")).map fun _flatteningStrategy =>
    let isMultipleRows :=
      match arrayHandling with
      | .str s => s == "multiple_rows"
      | _ => false
    if isMultipleRows then
      (if containsSub "items" (pyLower (pyRepr schema)) then ["items"] else []) ++
        (if containsSub "shipping_address" (pyLower (pyRepr schema)) then
          ["shipping_address"] else [])
    else []

/-- Embeds `schema.get("confidence", {}).get("overall", 0.0)` coerced for the
multiplication by `5.0`. -/
def confOf (schema : Json) : Option ℚ :=
  (pyGetD schema "confidence" (.obj [])).bind fun confidence =>
  (pyGetD confidence "overall" (.num ⟨false, 0, 0, 0, false, 0⟩)).bind asNumber

/-- The evaluation record assembled by `evaluate_schema_inference`
(`issues` and `schema_details` carry no scoring information). -/
structure SchemaEval where
  columnAccuracy : ℚ
  flatteningScore : ℚ
  intentScore : ℚ
  overallScore : ℚ
  overallPass : Bool
  extractionSuccess : Bool
  deriving Repr, DecidableEq

/-- The record returned when schema extraction fails. -/
def failedEval : SchemaEval :=
  { columnAccuracy := 0, flatteningScore := 0, intentScore := 0,
    overallScore := 0, overallPass := false, extractionSuccess := false }

/-- The fixed bonus column lists of the flattening check. -/
def productColumns : List String := ["product_id", "quantity", "category", "product_name"]

/-- See `productColumns`. -/
def addressColumns : List String := ["state", "city", "zip_code", "country"]

/-- Embeds `evaluation["column_accuracy"]`: found/expected ratio (`0` when the
expected list is empty), scaled by five and capped at `5.0`. -/
def columnAccuracyOf (expectedColumns schemaColumns : List String) : ℚ :=
  let foundColumns := expectedColumns.filter (fun col => col ∈ schemaColumns)
  let columnAccuracyRaw : ℚ :=
    if expectedColumns.isEmpty then 0
    else (foundColumns.length : ℚ) / (expectedColumns.length : ℚ)
  min (columnAccuracyRaw * 5) 5

/-- Embeds `evaluation["flattening_score"]`: `2.5` per required flattening field
matched by a detected operation, `+1.0` bonuses for the fixed
product/address column lists, capped at `5.0`; a perfect `5.0` when no
flattening is required. -/
def flatteningScoreOf (requiredFlattening schemaColumns
    flatteningOperations : List String) : ℚ :=
  if requiredFlattening.isEmpty then 5
  else
    let base : ℚ :=
      ((requiredFlattening.filter
          (fun rf => flatteningOperations.any (fun op => containsSub rf op))).length : ℚ)
        * (5/2)
    let itemsBonus : ℚ :=
      if "items" ∈ requiredFlattening && "items" ∈ flatteningOperations &&
          productColumns.any (fun col => col ∈ schemaColumns) then 1 else 0
    let addressBonus : ℚ :=
      if "shipping_address" ∈ requiredFlattening &&
          "shipping_address" ∈ flatteningOperations &&
          addressColumns.any (fun col => col ∈ schemaColumns) then 1 else 0
    min (base + itemsBonus + addressBonus) 5

/-- Pure scoring tail of `evaluate_schema_inference`, once the schema's
columns, flattening operations and confidence have been read. -/
def mkEval (expectedColumns requiredFlattening : List String)
    (schemaColumns flatteningOperations : List String)
    (confidence : ℚ) : SchemaEval :=
  let columnAccuracy := columnAccuracyOf expectedColumns schemaColumns
  let flatteningScore :=
    flatteningScoreOf requiredFlattening schemaColumns flatteningOperations
  let intentScore := confidence * 5
  let overallScore :=
    columnAccuracy * (4/10) + flatteningScore * (3/10) + intentScore * (3/10)
  { columnAccuracy := columnAccuracy, flatteningScore := flatteningScore,
    intentScore := intentScore, overallScore := overallScore,
    overallPass := decide (overallScore ≥ 35/10), extractionSuccess := true }

/-- Embeds `JSONToCSVSchemaEvaluator.evaluate_schema_inference`: extraction
failure yields the all-zero non-passing record; otherwise the schema's
columns, flattening operations and confidence feed the scoring tail.
`none` models an `AttributeError`/`TypeError` that the method does not
catch (non-dict `tables`/`fields`/`confidence` values, non-numeric
confidence). -/
def evaluateSchemaInference (response : String)
    (expectedColumns requiredFlattening : List String)
    (_analyticalIntent : String) : Option SchemaEval :=
  if (extractSchemaGeneratorOutput response).success then
    (extractSchemaGeneratorOutput response).schema.bind fun schema =>
    (pyGetD schema "tables" (.obj [])).bind fun tables =>
    (tablesColumnsOf tables).bind fun schemaColumns =>
    (flatOpsOf schema).bind fun flatteningOperations =>
    (confOf schema).map fun confidence =>
      mkEval expectedColumns requiredFlattening schemaColumns
        flatteningOperations confidence
  else some failedEval

end Eval

/-!
## Shared helper lemmas
-/

theorem subAux_iff (n : List Char) : ∀ h : List Char, subAux n h = true ↔ n <:+: h
  | [] => by simp [subAux, List.isEmpty_iff, List.infix_nil]
  | c :: rest => by
      simp [subAux, List.isPrefixOf_iff_prefix, subAux_iff n rest,
        List.infix_cons_iff]

theorem containsSub_iff (needle hay : String) :
    containsSub needle hay = true ↔ needle.toList <:+: hay.toList :=
  subAux_iff _ _

theorem pyLower_toList (s : String) :
    (pyLower s).toList = s.toList.map Char.toLower := rfl

namespace Eval

theorem stripPrefixL_suffix :
    ∀ (ps cs r : List Char), stripPrefixL ps cs = some r → r <:+ cs
  | [], cs, r => by
      intro h
      simp only [stripPrefixL, Option.some.injEq] at h
      exact h ▸ List.suffix_refl cs
  | _ :: _, [], _ => by intro h; simp [stripPrefixL] at h
  | p :: ps, c :: cs, r => by
      intro h
      simp only [stripPrefixL] at h
      split at h
      · exact (stripPrefixL_suffix ps cs r h).trans (List.suffix_cons c cs)
      · exact absurd h (by simp)

theorem matchFencedAt_eq_none {cs : List Char} (h : lbraceChar ∉ cs) :
    matchFencedAt cs = none := by
  unfold matchFencedAt
  cases hstrip : stripPrefixL fenceOpen cs with
  | none => rfl
  | some rest =>
      cases hdrop : rest.dropWhile isPyWs with
      | nil => simp [hdrop]
      | cons c r2 =>
          have hcin : c ∈ cs := by
            have h1 : c ∈ rest.dropWhile isPyWs := by
              rw [hdrop]; exact List.mem_cons_self c r2
            have h2 : c ∈ rest := (List.dropWhile_sublist _).subset h1
            exact (stripPrefixL_suffix _ _ _ hstrip).subset h2
          have hne : (c == lbraceChar) = false := by
            simp only [beq_eq_false_iff_ne, ne_eq]
            rintro rfl
            exact h hcin
          simp [hdrop, hne]

theorem findFencedAux_eq_none :
    ∀ {cs : List Char}, lbraceChar ∉ cs → findFencedAux cs = none
  | [], _ => rfl
  | c :: rest, h => by
      have h1 : matchFencedAt (c :: rest) = none := matchFencedAt_eq_none h
      have h2 : findFencedAux rest = none :=
        findFencedAux_eq_none (fun hm => h (List.mem_cons_of_mem c hm))
      simp [findFencedAux, h1, h2]

theorem matchFallbackAt_eq_none {cs : List Char} (h : lbraceChar ∉ cs) :
    matchFallbackAt cs = none := by
  unfold matchFallbackAt
  cases cs with
  | nil => rfl
  | cons c rest =>
      have hne : (c == lbraceChar) = false := by
        simp only [beq_eq_false_iff_ne, ne_eq]
        rintro rfl
        exact h (List.mem_cons_self _ _)
      simp [hne]

theorem findFallbackAux_eq_none :
    ∀ {cs : List Char}, lbraceChar ∉ cs → findFallbackAux cs = none
  | [], _ => rfl
  | c :: rest, h => by
      have h1 : matchFallbackAt (c :: rest) = none := matchFallbackAt_eq_none h
      have h2 : findFallbackAux rest = none :=
        findFallbackAux_eq_none (fun hm => h (List.mem_cons_of_mem c hm))
      simp [findFallbackAux, h1, h2]

/-- The second disjunct of the mention check is redundant: the
case-sensitive phrase forces the case-insensitive one. -/
theorem mentions_iff_lower (r : String) :
    mentionsSchemaGenerator r = containsSub "schema-generator" (pyLower r) := by
  unfold mentionsSchemaGenerator
  cases h2 : containsSub "Use the schema-generator" r with
  | false => simp
  | true =>
      have hinf : "Use the schema-generator".toList <:+: r.toList :=
        (containsSub_iff _ _).mp h2
      have hmap := hinf.map Char.toLower
      have htarget :
          "schema-generator".toList <:+:
            "Use the schema-generator".toList.map Char.toLower := by
        have : subAux "schema-generator".toList
            ("Use the schema-generator".toList.map Char.toLower) = true := rfl
        exact (subAux_iff _ _).mp this
      have : containsSub "schema-generator" (pyLower r) = true := by
        rw [containsSub_iff, pyLower_toList]
        exact htarget.trans hmap
      simp [this]

end Eval

/-!
## Claim theorems
-/

namespace Monitoring

/-- The schema-validator score as the claim states it: `5.0` minus `2.0`
for missing `entities`, `2.0` for missing `tables`, `1.0` for missing
`transformations`, `0.2` per field lacking a `type` key, floored at `0`;
malformed input scores `0`. -/
def schemaScoreSpec (r : SchemaParse) : ℚ :=
  match r with
  | .ok s =>
      max 0 ((5 : ℚ)
        - (if s.hasEntities then 0 else 2)
        - (if s.tables.isSome then 0 else 2)
        - (if s.hasTransformations then 0 else 1)
        - (missingTypeCount s : ℚ) * (2/10))
  | _ => 0

/-- C3: the schema validator starts at 5.0 and deducts exactly 2.0 for a
missing `entities` section, 2.0 for a missing `tables` section, 1.0 for a
missing `transformations` section, and 0.2 per table field lacking a
`type` key; the result is floored at 0.0 and never negative; a document
missing all three sections scores exactly 0.0; malformed JSON scores 0.0
immediately. -/
theorem schema_validator_deduction_schedule :
    (∀ r, (validateSchemaFile r).score = schemaScoreSpec r)
    ∧ (∀ r, 0 ≤ (validateSchemaFile r).score)
    ∧ (∀ s : SchemaDoc, s.hasEntities = false → s.tables = none →
        s.hasTransformations = false → (validateSchemaFile (.ok s)).score = 0)
    ∧ (validateSchemaFile .decodeError).score = 0 := by
  refine ⟨?_, ?_, ?_, rfl⟩
  · intro r
    cases r with
    | decodeError => rfl
    | otherError msg => rfl
    | ok s =>
        obtain ⟨he, ht, tb⟩ := s
        simp only [validateSchemaFile, schemaScoreSpec]
        cases he <;> cases ht <;> cases tb <;> simp [missingTypeCount]
  · intro r
    cases r with
    | decodeError => simp [validateSchemaFile]
    | otherError msg => simp [validateSchemaFile]
    | ok s => simp only [validateSchemaFile]; exact le_max_left 0 _
  · intro s h1 h2 h3
    obtain ⟨he, ht, tb⟩ := s
    simp only at h1 h2 h3
    subst h1; subst h2; subst h3
    norm_num [validateSchemaFile, missingTypeCount]

/-- Witness for the hypothesis-bearing clause of the C3 theorem. -/
theorem schema_validator_deduction_schedule_witness :
    (validateSchemaFile (.ok ⟨false, false, none⟩)).score = 0 :=
  schema_validator_deduction_schedule.2.2.1 ⟨false, false, none⟩ rfl rfl rfl

/-- A syntactically valid ETL script with a data-processing import, a
function definition and a file read, but no CSV write and no try/except. -/
def sampleEtlScript : String :=
  "import pandas\ndef transform(path):\n    with open(path) as f:\n        return f.read()\n"

/-- C4 counterexample: `sampleEtlScript` has no try/except pair and no
CSV-writing construct, yet the ETL validator scores it 3.5 (not ≤ 3.0) and
marks it passed (not failed). -/
theorem etl_validator_no_csv_no_try_counterexample :
    containsSub ".to_csv" sampleEtlScript = false
    ∧ containsSub "csv.writer" sampleEtlScript = false
    ∧ containsSub "try:" sampleEtlScript = false
    ∧ (validateEtlScript (.content sampleEtlScript true)).score = 7/2
    ∧ (validateEtlScript (.content sampleEtlScript true)).passed = true := by
  have h1 : containsSub "import pandas" sampleEtlScript = true := rfl
  have h2 : containsSub "def " sampleEtlScript = true := rfl
  have h3 : containsSub "with open" sampleEtlScript = true := rfl
  have h4 : containsSub ".to_csv" sampleEtlScript = false := rfl
  have h5 : containsSub "csv.writer" sampleEtlScript = false := rfl
  have h6 : containsSub "try:" sampleEtlScript = false := rfl
  refine ⟨h4, h5, h6, ?_, ?_⟩ <;>
    · simp only [validateEtlScript, h1, h2, h3, h4, h5, h6]
      norm_num

/-- C4 amended: such a script always loses the 1.0 CSV-write deduction and
the 0.5 error-handling deduction, so its score is at most 3.5 — but 3.5 is
above the 3.0 pass bar, so the script is not necessarily marked failed. -/
theorem etl_validator_no_csv_no_try_amended (code : String) (syntaxOk : Bool)
    (hcsv1 : containsSub ".to_csv" code = false)
    (hcsv2 : containsSub "csv.writer" code = false)
    (htry : containsSub "try:" code = false ∨ containsSub "except:" code = false) :
    (validateEtlScript (.content code syntaxOk)).score ≤ 7/2 := by
  have herr : (!(containsSub "try:" code) || !(containsSub "except:" code)) = true := by
    rcases htry with h | h <;> simp [h]
  simp only [validateEtlScript, hcsv1, hcsv2, herr, Bool.not_false, Bool.and_self,
    if_true]
  cases syntaxOk
  · simp only [Bool.false_eq_true, if_false]
    norm_num
  · simp only [if_true]
    split_ifs <;> norm_num

/-- Witness for the C4 amended theorem. -/
theorem etl_validator_no_csv_no_try_amended_witness :
    (validateEtlScript (.content sampleEtlScript true)).score ≤ 7/2 :=
  etl_validator_no_csv_no_try_amended sampleEtlScript true rfl rfl (Or.inl rfl)

/-- C7 counterexample: a second consecutive `start_monitoring` is not a
no-op — it schedules the watch and starts the observer again, so the state
after two starts differs from the state after one. -/
theorem start_monitoring_second_start_counterexample :
    startMonitoring (startMonitoring initMonitor) ≠ startMonitoring initMonitor := by
  decide

/-- C7 amended: `start_monitoring` is unguarded — every call, including on
an already-watching monitor, schedules a fresh watch and calls the
observer's start again, leaving `monitoring_active` set; only
`stop_monitoring` is guarded by `monitoring_active` (stopping a
non-watching monitor is a no-op). -/
theorem start_monitoring_unguarded_amended :
    (∀ m, (startMonitoring m).monitoringActive = true)
    ∧ (∀ m, (startMonitoring m).observer.scheduledWatches
          = m.observer.scheduledWatches + 1
        ∧ (startMonitoring m).observer.startCalls = m.observer.startCalls + 1)
    ∧ (∀ m, m.monitoringActive = false → stopMonitoring m = m) := by
  refine ⟨fun m => rfl, fun m => ⟨rfl, rfl⟩, fun m h => ?_⟩
  simp [stopMonitoring, h]

/-- Witness for the guarded-stop clause of the C7 amended theorem. -/
theorem start_monitoring_unguarded_amended_witness :
    stopMonitoring initMonitor = initMonitor :=
  start_monitoring_unguarded_amended.2.2 initMonitor rfl

end Monitoring

namespace FileEval

/-- A workspace listing containing a dot-file, a file under a
byte-compiled cache directory, and a (schema) directory entry. -/
def hiddenTree : List FsEntry :=
  [{ path := [".env"], isFile := true,
     fingerprint := { size := 5, mtime := 0, contentHash := "h1" } },
   { path := ["__pycache__", "m.pyc"], isFile := true,
     fingerprint := { size := 9, mtime := 0, contentHash := "h2" } },
   { path := ["schema"], isFile := false,
     fingerprint := { size := 0, mtime := 0, contentHash := "h3" } }]

/-- C6 counterexample: the snapshot of `hiddenTree` keeps the dot-file and
the `__pycache__` artifact — `capture_workspace_state` performs no
dot-file or noise-directory exclusion. -/
theorem capture_includes_hidden_counterexample :
    ((captureWorkspaceState hiddenTree 0).files.map Prod.fst)
      = [".env", "__pycache__/m.pyc"] := by
  decide

/-- C6 amended: a snapshot never maps directories — its keys are exactly
the relative paths of the regular-file entries of the enumeration, with no
exclusion of hidden or cache paths. -/
theorem capture_only_regular_files_amended (tree : List FsEntry) (now : ℚ)
    (p : String) :
    p ∈ (captureWorkspaceState tree now).files.map Prod.fst
      ↔ ∃ e ∈ tree, e.isFile = true ∧ joinPath e.path = p := by
  simp only [captureWorkspaceState, List.map_map, List.mem_map,
    List.mem_filter]
  constructor
  · rintro ⟨e, ⟨he, hf⟩, hp⟩
    exact ⟨e, he, hf, hp⟩
  · rintro ⟨e, he, hf, hp⟩
    exact ⟨e, ⟨he, hf⟩, hp⟩

/-- Evaluation rule of `overallFromScores` when the list is non-empty and
has a strictly positive entry. -/
theorem overallFromScores_eq (l : List ℚ) (h1 : l.isEmpty = false)
    (h2 : (l.filter (fun s => 0 < s)).length ≠ 0) :
    overallFromScores l = some (l.sum / ((l.filter (fun s => 0 < s)).length : ℚ)) := by
  simp [overallFromScores, h1, h2]

/-- The component scores of the C1 counterexample. -/
def c1Components : ComponentScores := ⟨5, 0, 0, 0, 0⟩

/-- C1 counterexample: in full-pipeline mode with component scores
`(5, 0, 0, 0, 0)` the code returns `overall_score = 5.0` (and a pass),
while the plain arithmetic mean of the five components is `1.0` — the code
divides by the number of strictly positive components, not by five. -/
theorem full_pipeline_overall_mean_counterexample :
    overallResult c1Components .fullPipeline false = some (5, true)
    ∧ (c1Components.process + c1Components.fileOutputs
        + c1Components.functionality + c1Components.consistency
        + c1Components.productionReadiness) / 5 = 1
    ∧ (5 : ℚ) ≠ 1 := by
  refine ⟨?_, by norm_num [c1Components], by norm_num⟩
  norm_num [overallResult, overallScore, overallFromScores, pipelineScoresList,
    c1Components, passThreshold, List.filter_cons, List.filter_nil]

/-- Sum of the full-pipeline `scores` list (the five raw components). -/
def fullSum (c : ComponentScores) : ℚ :=
  (pipelineScoresList c .fullPipeline false).sum

/-- Number of strictly positive entries of the full-pipeline list — the
divisor of `_evaluate_complete_pipeline`'s overall score. -/
def fullPosCount (c : ComponentScores) : ℕ :=
  ((pipelineScoresList c .fullPipeline false).filter (fun s => 0 < s)).length

theorem fullSum_eq (c : ComponentScores) :
    fullSum c = c.process + c.fileOutputs + c.functionality + c.consistency
      + c.productionReadiness := by
  simp only [fullSum, pipelineScoresList, List.sum_cons, List.sum_nil]
  ring

theorem fullPosCount_eq_indicators (c : ComponentScores) :
    fullPosCount c
      = (if 0 < c.process then 1 else 0) + (if 0 < c.fileOutputs then 1 else 0)
        + (if 0 < c.functionality then 1 else 0)
        + (if 0 < c.consistency then 1 else 0)
        + (if 0 < c.productionReadiness then 1 else 0) := by
  simp only [fullPosCount, pipelineScoresList, List.filter_cons, List.filter_nil,
    decide_eq_true_eq]
  split_ifs <;> simp

theorem overallScore_fullPipeline_posCount (c : ComponentScores)
    (hk : 1 ≤ fullPosCount c) :
    overallScore c .fullPipeline false
      = some (fullSum c / (fullPosCount c : ℚ)) := by
  have hk' : ((pipelineScoresList c .fullPipeline false).filter
      (fun s => 0 < s)).length ≠ 0 := by
    unfold fullPosCount at hk
    omega
  rw [overallScore, overallFromScores_eq _ (by simp [pipelineScoresList]) hk']
  rfl

theorem overallScore_fullPipeline_zeroDiv (c : ComponentScores)
    (h0 : fullPosCount c = 0) :
    overallScore c .fullPipeline false = none := by
  have h0' : ((pipelineScoresList c .fullPipeline false).filter
      (fun s => 0 < s)).length = 0 := h0
  have hne : (pipelineScoresList c .fullPipeline false).isEmpty = false := by
    simp [pipelineScoresList]
  rw [overallScore, overallFromScores]
  simp [hne, h0']

/-- C1 amended: in full-pipeline mode `overall_score` is the sum of the
five component scores divided by the number of strictly positive ones
(with `overall_pass` iff that quotient is `≥ 3.5`); when no component is
strictly positive — in particular when all five are zero — the division
raises `ZeroDivisionError` and no result is produced; and for nonnegative
components (which the five evaluators guarantee) the overall score equals
the plain arithmetic mean `sum / 5` exactly when all five components are
strictly positive. -/
theorem full_pipeline_overall_mean_amended (c : ComponentScores) :
    (fullSum c = c.process + c.fileOutputs + c.functionality + c.consistency
        + c.productionReadiness)
    ∧ (1 ≤ fullPosCount c →
        overallResult c .fullPipeline false
          = some (fullSum c / (fullPosCount c : ℚ),
              decide (fullSum c / (fullPosCount c : ℚ) ≥ 7/2)))
    ∧ (fullPosCount c = 0 → overallResult c .fullPipeline false = none)
    ∧ (0 ≤ c.process → 0 ≤ c.fileOutputs → 0 ≤ c.functionality →
        0 ≤ c.consistency → 0 ≤ c.productionReadiness →
        (overallScore c .fullPipeline false = some (fullSum c / 5)
          ↔ (0 < c.process ∧ 0 < c.fileOutputs ∧ 0 < c.functionality
              ∧ 0 < c.consistency ∧ 0 < c.productionReadiness))) := by
  refine ⟨fullSum_eq c, ?_, ?_, ?_⟩
  · intro hk
    rw [overallResult, overallScore_fullPipeline_posCount c hk, Option.map_some']
    norm_num [passThreshold]
  · intro h0
    rw [overallResult, overallScore_fullPipeline_zeroDiv c h0]
    rfl
  · intro hn1 hn2 hn3 hn4 hn5
    constructor
    · intro heq
      have hk : 1 ≤ fullPosCount c := by
        rcases Nat.eq_zero_or_pos (fullPosCount c) with h0 | h1
        · rw [overallScore_fullPipeline_zeroDiv c h0] at heq
          exact absurd heq (by simp)
        · exact h1
      rw [overallScore_fullPipeline_posCount c hk] at heq
      have heq' : fullSum c / (fullPosCount c : ℚ) = fullSum c / 5 :=
        Option.some_inj.mp heq
      have hkq : ((fullPosCount c : ℚ)) ≠ 0 := by
        exact_mod_cast Nat.pos_iff_ne_zero.mp hk
      rw [div_eq_div_iff hkq (by norm_num : (5:ℚ) ≠ 0)] at heq'
      by_cases hS : fullSum c = 0
      · exfalso
        have hsum := fullSum_eq c
        rw [hS] at hsum
        have hp : c.process = 0 := by linarith
        have hf : c.fileOutputs = 0 := by linarith
        have hfn : c.functionality = 0 := by linarith
        have hcs : c.consistency = 0 := by linarith
        have hpr : c.productionReadiness = 0 := by linarith
        have : fullPosCount c = 0 := by
          rw [fullPosCount_eq_indicators, hp, hf, hfn, hcs, hpr]
          simp
        omega
      · have hk5 : ((fullPosCount c : ℚ)) = 5 := by
          have := mul_left_cancel₀ hS heq'
          linarith
        have hk5' : fullPosCount c = 5 := by exact_mod_cast hk5
        rw [fullPosCount_eq_indicators] at hk5'
        refine ⟨?_, ?_, ?_, ?_, ?_⟩ <;>
          · by_contra hneg
            rw [if_neg hneg] at hk5'
            split_ifs at hk5' <;> omega
    · rintro ⟨hp, hf, hfn, hcs, hpr⟩
      have hk5 : fullPosCount c = 5 := by
        rw [fullPosCount_eq_indicators]
        simp [hp, hf, hfn, hcs, hpr]
      rw [overallScore_fullPipeline_posCount c (by omega), hk5]
      norm_num

/-- Witness for the C1 amended theorem: a mixed input `(3, 4, 0, 0, 0)`
(divisor 2, not 5) and the all-zero input (no result). -/
theorem full_pipeline_overall_mean_amended_witness :
    overallResult ⟨3, 4, 0, 0, 0⟩ .fullPipeline false
      = some (fullSum ⟨3, 4, 0, 0, 0⟩ / (fullPosCount ⟨3, 4, 0, 0, 0⟩ : ℚ),
          decide (fullSum ⟨3, 4, 0, 0, 0⟩
            / (fullPosCount ⟨3, 4, 0, 0, 0⟩ : ℚ) ≥ 7/2))
    ∧ overallResult ⟨0, 0, 0, 0, 0⟩ .fullPipeline false = none :=
  ⟨(full_pipeline_overall_mean_amended ⟨3, 4, 0, 0, 0⟩).2.1
      (by norm_num [fullPosCount, pipelineScoresList, List.filter_cons,
        List.filter_nil]),
   (full_pipeline_overall_mean_amended ⟨0, 0, 0, 0, 0⟩).2.2.1
      (by norm_num [fullPosCount, pipelineScoresList, List.filter_cons,
        List.filter_nil])⟩

/-- The component scores of the C2 counterexample. -/
def c2Components : ComponentScores := ⟨0, 5, 0, 0, 0⟩

/-- C2 counterexample: in incremental mode with component scores
`(0, 5, 0, 0, 0)` held fixed, the overall score is `2.0` without the
permission-seeking bonus but only `1.5` with it — the `+1.0` bonus lowers
the overall score, because it also grows the positive-score count the sum
is divided by. -/
theorem incremental_bonus_monotone_counterexample :
    overallScore c2Components .incremental false = some 2
    ∧ overallScore c2Components .incremental true = some (3/2)
    ∧ (3/2 : ℚ) < 2 := by
  refine ⟨?_, ?_, by norm_num⟩ <;>
    norm_num [overallScore, overallFromScores, pipelineScoresList, c2Components,
      List.filter_cons, List.filter_nil]

/-- C2 amended: writing `S` for the weighted component sum and `k ≥ 1` for
the number of strictly positive weighted components, the incremental
overall score is `S / k` without the bonus and `(S + 1) / (k + 1)` with
it, and the bonus raises (or preserves) the overall score exactly when
`S ≤ k`; otherwise it strictly lowers it. -/
theorem incremental_bonus_monotone_amended (c : ComponentScores)
    (h : 1 ≤ incrPosCount c) :
    overallScore c .incremental false
      = some (incrWeightedSum c / (incrPosCount c : ℚ))
    ∧ overallScore c .incremental true
      = some ((incrWeightedSum c + 1) / ((incrPosCount c : ℚ) + 1))
    ∧ (incrWeightedSum c / (incrPosCount c : ℚ)
          ≤ (incrWeightedSum c + 1) / ((incrPosCount c : ℚ) + 1)
        ↔ incrWeightedSum c ≤ (incrPosCount c : ℚ)) := by
  have hk0 : incrPosCount c ≠ 0 := by omega
  refine ⟨?_, ?_, ?_⟩
  · rw [overallScore, overallFromScores_eq _ (by simp [pipelineScoresList]) hk0]
    rfl
  · have hsum : (pipelineScoresList c .incremental true).sum
        = incrWeightedSum c + 1 := by
      simp [pipelineScoresList, incrWeightedSum]
      ring
    have hfil : ((pipelineScoresList c .incremental true).filter
        (fun s => 0 < s)).length = incrPosCount c + 1 := by
      have : pipelineScoresList c .incremental true
          = pipelineScoresList c .incremental false ++ [1] := by
        simp [pipelineScoresList]
      rw [this, List.filter_append, List.length_append, incrPosCount]
      norm_num
    rw [overallScore,
      overallFromScores_eq _ (by simp [pipelineScoresList]) (by rw [hfil]; omega),
      hsum, hfil]
    push_cast
    ring_nf
  · have hkpos : (0 : ℚ) < (incrPosCount c : ℚ) := by
      exact_mod_cast Nat.pos_of_ne_zero hk0
    have hk1pos : (0 : ℚ) < (incrPosCount c : ℚ) + 1 := by linarith
    rw [div_le_div_iff₀ hkpos hk1pos]
    constructor <;> intro hle <;> nlinarith

/-- Witness for the C2 amended theorem. -/
theorem incremental_bonus_monotone_amended_witness :
    overallScore ⟨5, 5, 5, 5, 5⟩ .incremental false
      = some (incrWeightedSum ⟨5, 5, 5, 5, 5⟩ / (incrPosCount ⟨5, 5, 5, 5, 5⟩ : ℚ))
    ∧ overallScore ⟨5, 5, 5, 5, 5⟩ .incremental true
      = some ((incrWeightedSum ⟨5, 5, 5, 5, 5⟩ + 1)
          / ((incrPosCount ⟨5, 5, 5, 5, 5⟩ : ℚ) + 1))
    ∧ (incrWeightedSum ⟨5, 5, 5, 5, 5⟩ / (incrPosCount ⟨5, 5, 5, 5, 5⟩ : ℚ)
          ≤ (incrWeightedSum ⟨5, 5, 5, 5, 5⟩ + 1)
            / ((incrPosCount ⟨5, 5, 5, 5, 5⟩ : ℚ) + 1)
        ↔ incrWeightedSum ⟨5, 5, 5, 5, 5⟩ ≤ (incrPosCount ⟨5, 5, 5, 5, 5⟩ : ℚ)) :=
  incremental_bonus_monotone_amended ⟨5, 5, 5, 5, 5⟩
    (by norm_num [incrPosCount, pipelineScoresList, List.filter_cons, List.filter_nil])

/-- The schema of the C5 failing input: one schema file whose `entities`
coincide with its `tables` keys (100% overlap, well above 50%). -/
def c5Schema : ConsSchema := ⟨some ["orders"], some ["orders"]⟩

/-- C5 (code bug): on a workspace whose first schema file is perfectly
entity/table consistent, the incremental cross-file consistency evaluation
returns `4.0`, not the claimed `5.0`: after the entity/table check the
code evaluates `if schema_files and etl_files:` although `etl_files` is
never assigned in the incremental branch, and the resulting
`UnboundLocalError` is caught by the blanket `except`, deducting `1.0`. -/
theorem cross_file_consistency_unbound_local_bug :
    crossFileConsistencyIncremental [.ok c5Schema] [] = 4
    ∧ (4 : ℚ) ≠ 5 := by
  constructor
  · have hfil : consistencyRatio ["orders"] ["orders"] = 1 := by
      norm_num [consistencyRatio, List.dedup]
    simp only [crossFileConsistencyIncremental, c5Schema, hfil]
    norm_num
  · norm_num

end FileEval

namespace Eval

/-- C9: on a response with no JSON at all (no `{` character), extraction
fails with one of two distinct stable reasons: the "called but produced no
structured schema" reason when the response mentions the schema-generator
(case-insensitively), and the "no structured schema found" reason (never
invoked) otherwise. -/
theorem extraction_failure_reason_distinction (response : String)
    (h : lbraceChar ∉ response.toList) :
    (extractSchemaGeneratorOutput response).success = false
    ∧ (extractSchemaGeneratorOutput response).error
        = some (if containsSub "schema-generator" (pyLower response)
            then errSchemaGenNoOutput else errNoSchemaFound)
    ∧ ((extractSchemaGeneratorOutput response).source
        = if containsSub "schema-generator" (pyLower response)
            then "schema-generator" else "unknown")
    ∧ errSchemaGenNoOutput ≠ errNoSchemaFound := by
  have hf : firstFenced response = none := by
    unfold firstFenced
    rw [findFencedAux_eq_none h]
    rfl
  have hfb : firstFallback response = none := by
    unfold firstFallback
    rw [findFallbackAux_eq_none h]
    rfl
  have hext : extractSchemaGeneratorOutput response
      = mentionResult (mentionsSchemaGenerator response) := by
    simp [extractSchemaGeneratorOutput, hf, hfb]
  rw [hext, mentions_iff_lower]
  refine ⟨?_, ?_, ?_, by decide⟩ <;>
    cases hc : containsSub "schema-generator" (pyLower response) <;>
      simp [mentionResult, hc]

/-- A braceless response that mentions the schema-generator. -/
def c9Response : String := "Let me call the schema-generator for this query."

/-- Witness for the C9 theorem. -/
theorem extraction_failure_reason_distinction_witness :
    (extractSchemaGeneratorOutput c9Response).success = false
    ∧ (extractSchemaGeneratorOutput c9Response).error
        = some (if containsSub "schema-generator" (pyLower c9Response)
            then errSchemaGenNoOutput else errNoSchemaFound)
    ∧ ((extractSchemaGeneratorOutput c9Response).source
        = if containsSub "schema-generator" (pyLower c9Response)
            then "schema-generator" else "unknown")
    ∧ errSchemaGenNoOutput ≠ errNoSchemaFound :=
  extraction_failure_reason_distinction c9Response (by decide)

/-- A response with two fenced JSON blocks: the first without the required
keys, the second with both `entities` and `tables`. -/
def c8Response : String :=
  "\x60\x60\x60json\n\x7b\"a\": 1\x7d\n\x60\x60\x60 then \x60\x60\x60json\n\x7b\"entities\": [], \"tables\": \x7b\x7d\x7d\n\x60\x60\x60"

/-- The second fenced block of `c8Response`, which carries both keys. -/
def c8SecondBlock : String := "\x7b\"entities\": [], \"tables\": \x7b\x7d\x7d"

/-- C8 counterexample: `c8Response` contains a fenced JSON block with both
`entities` and `tables` keys (which, processed alone, would succeed), but
since it is not the *first* fenced block, extraction fails — the code
parses only `json_matches[0]` and never searches later blocks, and the
fallback regex is not consulted because a fenced match exists. -/
theorem extraction_first_fenced_counterexample :
    containsSub c8SecondBlock c8Response = true
    ∧ (processCandidate c8SecondBlock false).success = true
    ∧ firstFenced c8Response = some "\x7b\"a\": 1\x7d"
    ∧ (extractSchemaGeneratorOutput c8Response).success = false
    ∧ (extractSchemaGeneratorOutput c8Response).error = some errNoSchemaFound := by
  refine ⟨rfl, rfl, rfl, rfl, rfl⟩

/-- C8 amended: extraction inspects only the first fenced match — when one
exists the result is fully determined by that block and the mention flag
(success iff it parses with both keys, in which case its parsed schema is
returned; a parse failure yields the JSON-error result without falling
back) — and the looser brace-matching fallback is consulted only when the
fenced pattern has no match anywhere in the response. -/
theorem extraction_first_fenced_amended :
    (∀ r g, firstFenced r = some g →
        extractSchemaGeneratorOutput r
          = processCandidate g (mentionsSchemaGenerator r))
    ∧ (∀ g flag, (processCandidate g flag).success = true ↔
        ∃ d, jsonParse g = some d ∧ pyContains d "entities" = some true
          ∧ pyContains d "tables" = some true)
    ∧ (∀ g flag d, jsonParse g = some d →
        (processCandidate g flag).success = true →
        (processCandidate g flag).schema = some d)
    ∧ (∀ g flag, jsonParse g = none →
        processCandidate g flag
          = { success := false, error := some "JSON parsing error",
              schema := none, source := "schema-generator" })
    ∧ (∀ r g, firstFenced r = none → firstFallback r = some g →
        extractSchemaGeneratorOutput r
          = processCandidate g (mentionsSchemaGenerator r))
    ∧ (∀ r, firstFenced r = none → firstFallback r = none →
        extractSchemaGeneratorOutput r
          = mentionResult (mentionsSchemaGenerator r)) := by
  refine ⟨?_, ?_, ?_, ?_, ?_, ?_⟩
  · intro r g hg
    simp [extractSchemaGeneratorOutput, hg]
  · intro g flag
    cases hp : jsonParse g with
    | none => simp [processCandidate, hp]
    | some d =>
        cases he : pyContains d "entities" with
        | none => simp [processCandidate, hp, he]
        | some b1 =>
            cases b1 with
            | false =>
                cases flag <;> simp [processCandidate, hp, he, mentionResult]
            | true =>
                cases ht : pyContains d "tables" with
                | none => simp [processCandidate, hp, he, ht]
                | some b2 =>
                    cases b2 with
                    | false =>
                        cases flag <;>
                          simp [processCandidate, hp, he, ht, mentionResult]
                    | true => simp [processCandidate, hp, he, ht]
  · intro g flag d hp hs
    cases he : pyContains d "entities" with
    | none => simp [processCandidate, hp, he] at hs
    | some b1 =>
        cases b1 with
        | false =>
            cases hflag : flag <;>
              simp [processCandidate, hp, he, mentionResult, hflag] at hs
        | true =>
            cases ht : pyContains d "tables" with
            | none => simp [processCandidate, hp, he, ht] at hs
            | some b2 =>
                cases b2 with
                | false =>
                    cases hflag : flag <;>
                      simp [processCandidate, hp, he, ht, mentionResult, hflag] at hs
                | true => simp [processCandidate, hp, he, ht]
  · intro g flag hp
    simp [processCandidate, hp]
  · intro r g hf hfb
    simp [extractSchemaGeneratorOutput, hf, hfb]
  · intro r hf hfb
    simp [extractSchemaGeneratorOutput, hf, hfb]

/-- Witness for the C8 amended theorem. -/
theorem extraction_first_fenced_amended_witness :
    extractSchemaGeneratorOutput c8Response
      = processCandidate "\x7b\"a\": 1\x7d" (mentionsSchemaGenerator c8Response) :=
  extraction_first_fenced_amended.1 c8Response "\x7b\"a\": 1\x7d" rfl

/-- A response whose single fenced schema has both keys, an empty tables
map, and a declared overall confidence of `2` (out of the documented
`[0, 1]` range). -/
def c10Response : String :=
  "\x60\x60\x60json \x7b\"entities\": 0, \"tables\": \x7b\x7d, \"confidence\": \x7b\"overall\": 2\x7d\x7d \x60\x60\x60"

/-- The parsed schema embedded in `c10Response`. -/
def c10Schema : Json :=
  .obj [("entities", .num ⟨false, 0, 0, 0, false, 0⟩),
        ("tables", .obj []),
        ("confidence", .obj [("overall", .num ⟨false, 2, 0, 0, false, 0⟩)])]

/-- C10 counterexample: with an empty `expected_columns` list the column
accuracy is pinned to `0.0`, yet `overall_pass` is *not* false for every
response — the intent score `confidence * 5` is unclamped, so a schema
declaring confidence `2` scores `0·0.4 + 5·0.3 + 10·0.3 = 4.5 ≥ 3.5` and
passes. -/
theorem empty_expected_columns_counterexample :
    evaluateSchemaInference c10Response [] [] "aggregation_by_product"
      = some { columnAccuracy := 0, flatteningScore := 5, intentScore := 10,
               overallScore := 9/2, overallPass := true,
               extractionSuccess := true } := by
  have hx : extractSchemaGeneratorOutput c10Response
      = { success := true, error := none, schema := some c10Schema,
          source := "schema-generator" } := rfl
  have h1 : pyGetD c10Schema "tables" (.obj []) = some (.obj []) := rfl
  have h2 : tablesColumnsOf (.obj []) = some [] := rfl
  have h3 : flatOpsOf c10Schema = some [] := rfl
  have h4 : confOf c10Schema
      = some (NumRep.toRat ⟨false, 2, 0, 0, false, 0⟩) := rfl
  have htr : NumRep.toRat ⟨false, 2, 0, 0, false, 0⟩ = 2 := by
    norm_num [NumRep.toRat]
  rw [evaluateSchemaInference, hx]
  simp only [Option.some_bind, h1, h2, h3, h4, htr, Option.map_some', if_true]
  norm_num [mkEval, columnAccuracyOf, flatteningScoreOf, SchemaEval.mk.injEq]

/-- C10 amended: with an empty `expected_columns` list the column accuracy
is `0.0` (never full credit) and the overall score collapses to
`0.3·flattening + 0.3·intent`; whenever the intent score is within its
documented range (`≤ 5`, i.e. declared confidence `≤ 1`) the overall score
is at most `3.0 < 3.5` and `overall_pass` is false — but the intent score
is unclamped, so out-of-range confidences can still pass. -/
theorem empty_expected_columns_amended (response : String)
    (requiredFlattening : List String) (intent : String) (ev : SchemaEval)
    (h : evaluateSchemaInference response [] requiredFlattening intent = some ev)
    (hconf : ev.intentScore ≤ 5) :
    ev.columnAccuracy = 0
    ∧ ev.overallScore
        = ev.flatteningScore * (3/10) + ev.intentScore * (3/10)
    ∧ ev.overallScore ≤ 3
    ∧ ev.overallPass = false := by
  rw [evaluateSchemaInference] at h
  cases hsuc : (extractSchemaGeneratorOutput response).success with
  | false =>
      rw [hsuc] at h
      simp only [Bool.false_eq_true, if_false, Option.some.injEq] at h
      subst h
      refine ⟨rfl, by norm_num [failedEval], by norm_num [failedEval], rfl⟩
  | true =>
      rw [hsuc] at h
      simp only [if_true] at h
      rw [Option.bind_eq_some] at h
      obtain ⟨schema, -, h⟩ := h
      rw [Option.bind_eq_some] at h
      obtain ⟨tables, -, h⟩ := h
      rw [Option.bind_eq_some] at h
      obtain ⟨cols, -, h⟩ := h
      rw [Option.bind_eq_some] at h
      obtain ⟨ops, -, h⟩ := h
      rw [Option.map_eq_some'] at h
      obtain ⟨conf, -, h⟩ := h
      subst h
      have hca : columnAccuracyOf [] cols = 0 := by
        norm_num [columnAccuracyOf]
      have hF : flatteningScoreOf requiredFlattening cols ops ≤ 5 := by
        rw [flatteningScoreOf]
        split
        · norm_num
        · exact min_le_right _ _
      have hI : conf * 5 ≤ 5 := hconf
      simp only [mkEval, hca] at hI hconf ⊢
      refine ⟨trivial, by ring, ?_, ?_⟩
      · have : (0:ℚ) * (4/10) + flatteningScoreOf requiredFlattening cols ops * (3/10)
            + conf * 5 * (3/10) ≤ 3 := by linarith
        linarith
      · simp only [decide_eq_false_iff_not, not_le]
        have : (0:ℚ) * (4/10) + flatteningScoreOf requiredFlattening cols ops * (3/10)
            + conf * 5 * (3/10) ≤ 3 := by linarith
        linarith

/-- A response with no structured output at all. -/
def c10FailResponse : String := "no structured output here"

/-- Witness for the C10 amended theorem. -/
theorem empty_expected_columns_amended_witness :
    failedEval.columnAccuracy = 0
    ∧ failedEval.overallScore
        = failedEval.flatteningScore * (3/10) + failedEval.intentScore * (3/10)
    ∧ failedEval.overallScore ≤ 3
    ∧ failedEval.overallPass = false :=
  empty_expected_columns_amended c10FailResponse [] "aggregation_by_product"
    failedEval rfl (by norm_num [failedEval])

end Eval

end EtlAgent
